import Mathlib

/-
  Verification of the multimaster commit coordinator against its
  specification.

  Shallow embedding of:
    * commit.c      -- MtmBeginTransaction, MtmTwoPhaseCommit,
                       GatherPrepares, GatherPrecommits
    * multimaster.c -- MtmGenerateGid, MtmGidParseNodeId, MtmGidParseXid,
                       MtmGetIncreasingTimestamp, MtmAllApplyWorkersFinished
    * ddl.c         -- MtmExecutorFinish

  Conventions: C strings are lists of byte values; nodemask_t (a 64-bit
  word) is a natural number with the 64-bit complement made explicit;
  shared state that the C code reads under a lock is passed to the embedded
  function as an explicit observation; fallible or erroring control flow
  (elog/mtm_log at ERROR level) is an explicit outcome constructor.
-/

/-! ## Node masks (nodemask_t, multimaster.h) -/

/-- All 64 bits of a `nodemask_t` set; `~mask` in C is `nodemaskAll ^^^ mask`. -/
def nodemaskAll : Nat := 2 ^ 64 - 1

/-- `BIT_CHECK(mask, i)`: `(mask & ((nodemask_t)1 << (i))) != 0`. -/
def BIT_CHECK (mask i : Nat) : Bool := mask.testBit i

/-- `BIT_CLEAR(mask, i)`: `mask &= ~((nodemask_t)1 << (i))` on a 64-bit word. -/
def BIT_CLEAR (mask i : Nat) : Nat := mask &&& (nodemaskAll ^^^ (1 <<< i))

theorem BIT_CLEAR_testBit (mask i j : Nat) (hj : j < 64) :
    (BIT_CLEAR mask i).testBit j = (mask.testBit j && !(decide (i = j))) := by
  unfold BIT_CLEAR nodemaskAll
  rw [Nat.testBit_land, Nat.testBit_xor, Nat.one_shiftLeft,
      Nat.testBit_two_pow_sub_one, Nat.testBit_two_pow]
  by_cases hij : i = j <;> simp [hij, hj]

/-! ## GID construction and parsing (multimaster.c:586-608) -/

/-- Decimal byte representation of a nonnegative integer, most significant
digit first: the output of `sprintf` with `%d` / `XID_FMT`. -/
def printNat (n : Nat) : List Nat :=
  if n = 0 then [48] else (Nat.digits 10 n).reverse.map (fun d => 48 + d)

/-- `MtmGenerateGid(gid, xid, node_id)`:
`sprintf(gid, "MTM-%d-" XID_FMT, node_id, xid)`; bytes 77 84 77 45 are
`M T M -`. -/
def MtmGenerateGid (node_id xid : Nat) : List Nat :=
  [77, 84, 77, 45] ++ printNat node_id ++ [45] ++ printNat xid

/-- Is byte `c` an ASCII decimal digit (as `sscanf`'s `%d` recognises)? -/
def isDigitByte (c : Nat) : Bool := 48 ≤ c && c ≤ 57

/-- Greedily consume digit bytes, accumulating their decimal value. -/
def scanNatAux : List Nat → Nat → Nat × List Nat
  | [], acc => (acc, [])
  | c :: rest, acc =>
      if isDigitByte c then scanNatAux rest (acc * 10 + (c - 48))
      else (acc, c :: rest)

/-- `sscanf`'s `%d` on a byte list: fails unless the first byte is a digit,
then consumes the maximal digit run. (Generated GIDs never carry a sign.) -/
def scanNat (s : List Nat) : Option (Nat × List Nat) :=
  match s with
  | [] => none
  | c :: _ => if isDigitByte c then some (scanNatAux s 0) else none

/-- `MtmGidParseNodeId(gid)`:
`int node_id = -1; sscanf(gid, "MTM-%d-%*d", &node_id); return node_id;`. -/
def MtmGidParseNodeId (gid : List Nat) : Int :=
  match gid with
  | 77 :: 84 :: 77 :: 45 :: rest =>
      match scanNat rest with
      | some (n, _) => (n : Int)
      | none => -1
  | _ => -1

/-- `MtmGidParseXid(gid)`:
`TransactionId xid = InvalidTransactionId; sscanf(gid, "MTM-%*d-" XID_FMT, &xid);`
(`InvalidTransactionId` is 0). -/
def MtmGidParseXid (gid : List Nat) : Nat :=
  match gid with
  | 77 :: 84 :: 77 :: 45 :: rest =>
      match scanNat rest with
      | some (_, rest2) =>
        match rest2 with
        | 45 :: rest3 =>
          match scanNat rest3 with
          | some (x, _) => x
          | none => 0
        | _ => 0
      | none => 0
  | _ => 0

/-- Does the byte list start with a non-digit (or is empty)? -/
def noDigitHead : List Nat → Bool
  | [] => true
  | c :: _ => !isDigitByte c

theorem printNat_digits {n c : Nat} (hc : c ∈ printNat n) : isDigitByte c = true := by
  unfold printNat at hc
  split at hc
  · simp at hc
    simp [hc, isDigitByte]
  · simp at hc
    obtain ⟨d, hd, rfl⟩ := hc
    have : d < 10 := Nat.digits_lt_base (by norm_num) hd
    simp [isDigitByte]
    omega

theorem printNat_ne_nil (n : Nat) : printNat n ≠ [] := by
  unfold printNat
  split
  · simp
  · simp [Nat.digits_ne_nil_iff_ne_zero, *]

theorem scanNatAux_digits_append (L : List Nat) (hL : ∀ c ∈ L, isDigitByte c = true)
    (r : List Nat) (hr : noDigitHead r = true) (acc : Nat) :
    scanNatAux (L ++ r) acc = (L.foldl (fun a c => a * 10 + (c - 48)) acc, r) := by
  induction L generalizing acc with
  | nil =>
    simp only [List.nil_append, List.foldl_nil]
    cases r with
    | nil => rfl
    | cons c rest =>
      have hcf : isDigitByte c = false := by
        simp only [noDigitHead] at hr
        simpa using hr
      simp [scanNatAux, hcf]
  | cons c L ih =>
    have hc : isDigitByte c = true := hL c (by simp)
    simp only [List.cons_append, scanNatAux, hc, if_pos, List.foldl_cons]
    exact ih (fun x hx => hL x (by simp [hx])) _

theorem foldr_horner (L : List Nat) (a : Nat) :
    L.foldr (fun d acc => acc * 10 + d) a = a * 10 ^ L.length + Nat.ofDigits 10 L := by
  induction L with
  | nil => simp [Nat.ofDigits_nil]
  | cons d L ih =>
    simp only [List.foldr_cons, ih, Nat.ofDigits_cons, List.length_cons]
    ring

theorem foldl_printNat (n : Nat) :
    (printNat n).foldl (fun a c => a * 10 + (c - 48)) 0 = n := by
  unfold printNat
  split
  · simp [*]
  · rw [List.foldl_map, List.foldl_reverse]
    have : ∀ (L : List Nat) (a : Nat),
        L.foldr (fun x y => y * 10 + (48 + x - 48)) a
          = L.foldr (fun d acc => acc * 10 + d) a := by
      intro L a
      induction L with
      | nil => rfl
      | cons d L ih => simp [List.foldr_cons, ih]
    rw [this, foldr_horner, Nat.ofDigits_digits]
    simp

theorem scanNat_printNat (n : Nat) (r : List Nat) (hr : noDigitHead r = true) :
    scanNat (printNat n ++ r) = some (n, r) := by
  have hne : printNat n ≠ [] := printNat_ne_nil n
  have hscan := scanNatAux_digits_append (printNat n)
    (fun c hc => printNat_digits hc) r hr 0
  rw [foldl_printNat] at hscan
  cases hp : printNat n with
  | nil => exact absurd hp hne
  | cons c rest =>
    have hc : isDigitByte c = true := printNat_digits (n := n) (by rw [hp]; simp)
    rw [hp] at hscan
    simpa [scanNat, hc, List.cons_append] using hscan

theorem parseNodeId_generateGid (node_id xid : Nat) :
    MtmGidParseNodeId (MtmGenerateGid node_id xid) = (node_id : Int) := by
  unfold MtmGenerateGid MtmGidParseNodeId
  have h : printNat node_id ++ [45] ++ printNat xid
      = printNat node_id ++ (45 :: printNat xid) := by simp
  simp only [List.cons_append, List.nil_append]
  rw [List.append_assoc, List.singleton_append,
      scanNat_printNat node_id (45 :: printNat xid) (by simp [noDigitHead, isDigitByte])]

theorem scanNat_printNat_nil (n : Nat) : scanNat (printNat n) = some (n, []) := by
  have h := scanNat_printNat n [] (by simp [noDigitHead])
  simpa using h

theorem parseXid_generateGid (node_id xid : Nat) :
    MtmGidParseXid (MtmGenerateGid node_id xid) = xid := by
  unfold MtmGenerateGid MtmGidParseXid
  simp only [List.cons_append, List.nil_append, List.append_assoc,
    List.singleton_append]
  simp only [scanNat_printNat node_id (45 :: printNat xid)
      (by simp [noDigitHead, isDigitByte]),
    scanNat_printNat_nil]

/-- C8: GID construction round-trips and is injective: parsing the node id
and the xid out of `MtmGenerateGid node_id xid` returns exactly `node_id`
and `xid`, and distinct `(node_id, xid)` pairs yield distinct GID strings. -/
theorem gid_roundtrip_and_injective (node_id xid : Nat) :
    MtmGidParseNodeId (MtmGenerateGid node_id xid) = (node_id : Int)
    ∧ MtmGidParseXid (MtmGenerateGid node_id xid) = xid
    ∧ ∀ node_id' xid' : Nat,
        MtmGenerateGid node_id xid = MtmGenerateGid node_id' xid' →
          node_id = node_id' ∧ xid = xid' := by
  refine ⟨parseNodeId_generateGid node_id xid, parseXid_generateGid node_id xid,
    fun node_id' xid' heq => ⟨?_, ?_⟩⟩
  · have h1 := parseNodeId_generateGid node_id xid
    have h2 := parseNodeId_generateGid node_id' xid'
    rw [heq, h2] at h1
    exact_mod_cast h1.symm
  · have h1 := parseXid_generateGid node_id xid
    have h2 := parseXid_generateGid node_id' xid'
    rw [heq, h2] at h1
    exact h1.symm

/-- Witness for C8 at node 2, xid 5. -/
theorem gid_roundtrip_and_injective_witness :
    MtmGidParseNodeId (MtmGenerateGid 2 5) = (2 : Int)
    ∧ MtmGidParseXid (MtmGenerateGid 2 5) = 5
    ∧ (2 = 2 ∧ 5 = 5) := by
  obtain ⟨h1, h2, h3⟩ := gid_roundtrip_and_injective 2 5
  exact ⟨h1, h2, h3 2 5 rfl⟩

/-! ## Monotonic timestamps (multimaster.c:193-210) -/

/-- `MtmGetIncreasingTimestamp`: under the spinlock,
`if (now <= last_timestamp) now = ++last_timestamp; else last_timestamp = now;`
returns the timestamp together with the updated `last_timestamp`. -/
def MtmGetIncreasingTimestamp (now last : Int) : Int × Int :=
  if now ≤ last then (last + 1, last + 1) else (now, now)

/-- Repeated calls of `MtmGetIncreasingTimestamp` in one process: `last` is
the stored `last_timestamp`, the list holds the successive real clock
readings; the result lists the returned timestamps. -/
def runClock (last : Int) : List Int → List Int
  | [] => []
  | now :: rest =>
      ((MtmGetIncreasingTimestamp now last).1 ::
        runClock (MtmGetIncreasingTimestamp now last).2 rest)

theorem increasingTimestamp_gt_last (now last : Int) :
    last < (MtmGetIncreasingTimestamp now last).1 := by
  unfold MtmGetIncreasingTimestamp
  split <;> simp <;> omega

/-- C9: each call returns `max(real_now, last+1)` and stores the returned
value as the new `last`; over any sequence of calls the returned timestamps
strictly increase (each exceeds the previously stored value). -/
theorem increasingTimestamp_max_and_monotone :
    (∀ now last : Int,
        (MtmGetIncreasingTimestamp now last).1 = max now (last + 1)
        ∧ (MtmGetIncreasingTimestamp now last).2
            = (MtmGetIncreasingTimestamp now last).1)
    ∧ ∀ (nows : List Int) (last : Int),
        List.Chain (· < ·) last (runClock last nows) := by
  constructor
  · intro now last
    constructor
    · unfold MtmGetIncreasingTimestamp
      split
      · rw [max_eq_right (by omega)]
      · rw [max_eq_left (by omega)]
    · unfold MtmGetIncreasingTimestamp
      split <;> rfl
  · intro nows
    induction nows with
    | nil => intro last; simp [runClock]
    | cons now rest ih =>
      intro last
      rw [runClock]
      have hst : (MtmGetIncreasingTimestamp now last).2
          = (MtmGetIncreasingTimestamp now last).1 := by
        unfold MtmGetIncreasingTimestamp
        split <;> rfl
      exact List.Chain.cons (increasingTimestamp_gt_last now last)
        (hst ▸ ih (MtmGetIncreasingTimestamp now last).2)

/-! ## MtmAllApplyWorkersFinished (multimaster.c:625-648) -/

/-- One per-peer `BgwPool`: the `active` and `pending` task counters that
the C code reads under the pool spinlock. -/
structure BgwPoolCounts where
  active : Nat
  pending : Nat
deriving DecidableEq, Repr

/-- The loop of `MtmAllApplyWorkersFinished`, index `i` running over the
pools. The C body computes `ntasks = active + pending` and then executes
`if (ntasks != 0) false;` — the branch is the bare expression statement
`false;`, which has no effect, so both branches of the test continue the
loop and the function can only fall through to `return true`. -/
def applyWorkersLoop (my_node_id : Nat) : Nat → List BgwPoolCounts → Bool
  | _, [] => true
  | i, p :: rest =>
      if i = my_node_id - 1 then applyWorkersLoop my_node_id (i + 1) rest
      else
        if p.active + p.pending ≠ 0 then applyWorkersLoop my_node_id (i + 1) rest
        else applyWorkersLoop my_node_id (i + 1) rest

/-- `MtmAllApplyWorkersFinished()`: `pools` holds the per-node `BgwPool`
counters for nodes 1.. (index `i` is node `i+1`), `my_node_id` is
`Mtm->my_node_id`. -/
def MtmAllApplyWorkersFinished (pools : List BgwPoolCounts) (my_node_id : Nat) : Bool :=
  applyWorkersLoop my_node_id 0 pools

theorem applyWorkersLoop_true (my_node_id : Nat) :
    ∀ (pools : List BgwPoolCounts) (i : Nat),
      applyWorkersLoop my_node_id i pools = true := by
  intro pools
  induction pools with
  | nil => intro i; rfl
  | cons p rest ih =>
    intro i
    unfold applyWorkersLoop
    split
    · exact ih (i + 1)
    · split <;> exact ih (i + 1)

/-- C10: `MtmAllApplyWorkersFinished` returns true for every state of the
apply pools — even when some pool other than this node's own still has a
nonzero `active + pending` task count, because `if (ntasks != 0) false;`
never leaves the loop. -/
theorem allApplyWorkersFinished_always_true (pools : List BgwPoolCounts)
    (my_node_id i : Nat) (h : i < pools.length) (hnotself : i ≠ my_node_id - 1)
    (htasks : (pools.get ⟨i, h⟩).active + (pools.get ⟨i, h⟩).pending ≠ 0) :
    MtmAllApplyWorkersFinished pools my_node_id = true :=
  applyWorkersLoop_true my_node_id pools 0

/-- Witness for C10: node 1's pool still has one active task, this node is
node 2, and the function nevertheless reports all apply workers finished. -/
theorem allApplyWorkersFinished_always_true_witness :
    (0 : Nat) < [BgwPoolCounts.mk 1 0].length
    ∧ MtmAllApplyWorkersFinished [BgwPoolCounts.mk 1 0] 2 = true := by
  refine ⟨by decide, allApplyWorkersFinished_always_true
    [BgwPoolCounts.mk 1 0] 2 0 (by decide) (by decide) (by decide)⟩

/-! ## Membership, messages and DMQ events (commit.c) -/

/-- `MtmNodeStatus` (multimaster.h): the membership states of §4.2. -/
inductive MtmNodeStatus
  | initialization
  | disabled
  | recovery
  | recovered
  | online
deriving DecidableEq, Repr

/-- The `MtmMessageCode` values consumed by the commit path. -/
inductive MtmMessageCode
  | msgPrepared
  | msgAborted
  | msgPrecommitted
  | msgCommitted
deriving DecidableEq, Repr

/-- The fields of `MtmArbiterMessage` that the gather loops read. -/
structure MtmArbiterMessage where
  code : MtmMessageCode
  node : Nat
  dxid : Nat
deriving DecidableEq, Repr

/-- One return of `dmq_pop` inside a gather loop. `msg` is a delivered
message (`dmq_pop` returned true); `detached` is `dmq_pop` returning false
for sender `sender_id`, bundled with the `Mtm->disabledNodeMask` and
`Mtm->status` values that the following `MtmLock(LW_SHARED)` critical
section observes. -/
inductive DmqPopEvent
  | msg (sender_id : Nat) (m : MtmArbiterMessage)
  | detached (sender_id : Nat) (disabledNodeMask : Nat) (status : MtmNodeStatus)
deriving DecidableEq, Repr

/-! ## GatherPrepares (commit.c:219-288) -/

/-- Result of one iteration of the `GatherPrepares` loop body. -/
inductive GatherPrepStep
  | cont (participantsMask : Nat) (prepared : Bool) (failed_at : Option Nat)
  | errOffline
deriving DecidableEq, Repr

/-- One iteration of the `GatherPrepares` loop body (commit.c:226-282).
On a delivered message the sender's bit is cleared (`BIT_CLEAR`), and if
`msg->code == MSG_ABORTED` then `prepared = false; *failed_at = msg->node`.
On a detach, under the membership lock: if the peer is in
`disabledNodeMask` and our own status is no longer `MTM_ONLINE`, the code
raises `elog(ERROR, "our node was disabled during transaction commit")`;
if the peer is disabled and we are still online, the bit is dropped with
`prepared = false; *failed_at = sender_to_node[sender_id]`; if the peer is
not (yet) disabled, nothing changes and the loop polls again. -/
def gatherPreparesStep (sender_to_node : Nat → Nat) (participantsMask : Nat)
    (prepared : Bool) (failed_at : Option Nat) : DmqPopEvent → GatherPrepStep
  | .msg sender_id m =>
      .cont (BIT_CLEAR participantsMask (sender_to_node sender_id - 1))
        (if m.code = .msgAborted then false else prepared)
        (if m.code = .msgAborted then some m.node else failed_at)
  | .detached sender_id disabledNodeMask status =>
      if BIT_CHECK disabledNodeMask (sender_to_node sender_id - 1) then
        if status ≠ .online then .errOffline
        else
          .cont (BIT_CLEAR participantsMask (sender_to_node sender_id - 1))
            false (some (sender_to_node sender_id))
      else .cont participantsMask prepared failed_at

/-- Outcome of `GatherPrepares`: the loop finished with all bits cleared,
or raised the went-offline error, or would block in `dmq_pop` forever
(the supplied event list ran out with bits still set). -/
inductive GatherPrepOutcome
  | done (prepared : Bool) (failed_at : Option Nat)
  | errOffline
  | blocked (participantsMask : Nat) (prepared : Bool) (failed_at : Option Nat)
deriving DecidableEq, Repr

/-- `GatherPrepares(x, participantsMask, &failed_at)` (commit.c:219-288):
loop `while (participantsMask != 0)`, one `dmq_pop` per iteration. -/
def GatherPrepares (sender_to_node : Nat → Nat) :
    Nat → Bool → Option Nat → List DmqPopEvent → GatherPrepOutcome
  | participantsMask, prepared, failed_at, events =>
    if participantsMask = 0 then .done prepared failed_at
    else
      match events with
      | [] => .blocked participantsMask prepared failed_at
      | e :: rest =>
        match gatherPreparesStep sender_to_node participantsMask prepared failed_at e with
        | .cont m p f => GatherPrepares sender_to_node m p f rest
        | .errOffline => .errOffline

/-! ## GatherPrecommits (commit.c:290-346) -/

/-- Result of one iteration of the `GatherPrecommits` loop body. -/
inductive GatherPrecommitStep
  | cont (participantsMask : Nat)
  | errOffline
deriving DecidableEq, Repr

/-- One iteration of the `GatherPrecommits` loop body (commit.c:295-342):
identical to `gatherPreparesStep` except that no reply can fail the
transaction — a delivered message only clears the sender's bit, and a
detached disabled peer is silently dropped (still erroring out if our own
status left `MTM_ONLINE`). -/
def gatherPrecommitsStep (sender_to_node : Nat → Nat) (participantsMask : Nat) :
    DmqPopEvent → GatherPrecommitStep
  | .msg sender_id _ =>
      .cont (BIT_CLEAR participantsMask (sender_to_node sender_id - 1))
  | .detached sender_id disabledNodeMask status =>
      if BIT_CHECK disabledNodeMask (sender_to_node sender_id - 1) then
        if status ≠ .online then .errOffline
        else .cont (BIT_CLEAR participantsMask (sender_to_node sender_id - 1))
      else .cont participantsMask

/-- Outcome of `GatherPrecommits`. -/
inductive GatherPrecommitOutcome
  | done
  | errOffline
  | blocked (participantsMask : Nat)
deriving DecidableEq, Repr

/-- `GatherPrecommits(x, participantsMask, code)` (commit.c:290-346). -/
def GatherPrecommits (sender_to_node : Nat → Nat) :
    Nat → List DmqPopEvent → GatherPrecommitOutcome
  | participantsMask, events =>
    if participantsMask = 0 then .done
    else
      match events with
      | [] => .blocked participantsMask
      | e :: rest =>
        match gatherPrecommitsStep sender_to_node participantsMask e with
        | .cont m => GatherPrecommits sender_to_node m rest
        | .errOffline => .errOffline

/-! ## MtmTwoPhaseCommit (commit.c:111-217) -/

/-- commit.c:173-175:
`participantsMask = (((nodemask_t)1 << Mtm->nAllNodes) - 1)
  & ~Mtm->disabledNodeMask & ~((nodemask_t)1 << (MtmNodeId-1));`. -/
def participantsMaskOf (nAllNodes myNodeId disabledNodeMask : Nat) : Nat :=
  ((1 <<< nAllNodes) - 1) &&& (nodemaskAll ^^^ disabledNodeMask)
    &&& (nodemaskAll ^^^ (1 <<< (myNodeId - 1)))

theorem participantsMaskOf_testBit (nAllNodes myNodeId disabledNodeMask i : Nat)
    (hn : nAllNodes ≤ 64) :
    (participantsMaskOf nAllNodes myNodeId disabledNodeMask).testBit i
      = (decide (i < nAllNodes) && !disabledNodeMask.testBit i
          && !(decide (i = myNodeId - 1))) := by
  unfold participantsMaskOf nodemaskAll
  simp only [Nat.testBit_land, Nat.testBit_xor, Nat.one_shiftLeft,
    Nat.testBit_two_pow_sub_one, Nat.testBit_two_pow]
  by_cases hin : i < nAllNodes
  · have h64 : i < 64 := lt_of_lt_of_le hin hn
    by_cases hself : myNodeId - 1 = i
    · simp [hin, h64, hself]
    · have : ¬(i = myNodeId - 1) := fun h => hself h.symm
      simp [hin, h64, hself, this]
  · simp [hin]

/-- The externally visible actions that `MtmTwoPhaseCommit` performs, in
program order. -/
inductive CommitAction
  | subscribe (xid : Nat)           -- dmq_stream_subscribe("xid<xid>")
  | sleepSecond                     -- MtmSleep(USECS_PER_SEC)
  | acquireCommitBarrier            -- LWLockAcquire(MtmCommitBarrier, LW_SHARED)
  | snapshotParticipants (participantsMask : Nat)
  | prepareLocal                    -- PrepareTransactionBlock(gid)
  | gatherPreparesPhase             -- GatherPrepares(...)
  | setPrecommitted                 -- SetPreparedTransactionState(gid, PRECOMMITTED)
  | gatherPrecommitsPhase           -- GatherPrecommits(..., MSG_PRECOMMITTED)
  | finishPrepared (commit : Bool)  -- FinishPreparedTransaction(gid, commit)
  | gatherCommitsPhase              -- GatherPrecommits(..., MSG_COMMITTED)
  | releaseCommitBarrier            -- LWLockRelease(MtmCommitBarrier)
  | unsubscribe                     -- dmq_stream_unsubscribe(stream)
deriving DecidableEq, Repr

/-- How a run of `MtmTwoPhaseCommit` ends. -/
inductive CommitOutcome
  | skippedLocal              -- returned false: fall through to local commit
  | prepareFailedLocal        -- PrepareTransactionBlock failed; returns true
  | errWentOffline            -- "This node became offline during current transaction"
  | errPrepareFailed (failed_at : Option Nat)
                              -- "Failed to prepare transaction %s at node %d"
  | errDisabledDuringCommit   -- "our node was disabled during transaction commit"
  | committed
  | blockedInGather           -- a gather loop would block in dmq_pop forever
deriving DecidableEq, Repr

/-- Inputs of one `MtmTwoPhaseCommit(&MtmTx)` run: the transaction flags,
the shared state observed at each read, the local 2PC result and the
`dmq_pop` returns of the three gather phases. -/
structure CommitInput where
  isDistributed : Bool
  containsDML : Bool
  extensionCreated : Bool          -- Mtm->extension_created
  xid : Nat
  stopNewCommitsPolls : Nat        -- iterations of `while (Mtm->stop_new_commits)`
  nAllNodes : Nat
  myNodeId : Nat                   -- MtmNodeId
  disabledNodeMask : Nat           -- observed in the snapshot critical section
  status : MtmNodeStatus           -- observed in the snapshot critical section
  prepareOk : Bool                 -- result of PrepareTransactionBlock(gid)
  sender_to_node : Nat → Nat
  prepareEvents : List DmqPopEvent
  precommitEvents : List DmqPopEvent
  commitEvents : List DmqPopEvent

/-- `MtmTwoPhaseCommit` (commit.c:111-217) as a trace of actions plus an
outcome. The early return `if (!x->isDistributed || !x->containsDML ||
!Mtm->extension_created) return false;` yields `skippedLocal` with no
actions; afterwards the code subscribes, polls `stop_new_commits`,
acquires the commit barrier, snapshots the participants under the
membership lock (erroring out if the status is no longer `MTM_ONLINE`),
prepares locally, and drives the three gather phases, releasing the
barrier and unsubscribing after the COMMITTED gather. -/
def MtmTwoPhaseCommit (x : CommitInput) : List CommitAction × CommitOutcome :=
  if !x.isDistributed || !x.containsDML || !x.extensionCreated then
    ([], .skippedLocal)
  else
    let pm := participantsMaskOf x.nAllNodes x.myNodeId x.disabledNodeMask
    let pre := CommitAction.subscribe x.xid ::
      (List.replicate x.stopNewCommitsPolls CommitAction.sleepSecond ++
        [CommitAction.acquireCommitBarrier, CommitAction.snapshotParticipants pm])
    if x.status ≠ .online then
      (pre, .errWentOffline)
    else if !x.prepareOk then
      (pre ++ [.prepareLocal], .prepareFailedLocal)
    else
      let t1 := pre ++ [.prepareLocal, .gatherPreparesPhase]
      match GatherPrepares x.sender_to_node pm true none x.prepareEvents with
      | .blocked _ _ _ => (t1, .blockedInGather)
      | .errOffline => (t1, .errDisabledDuringCommit)
      | .done prepared failed_at =>
        if !prepared then
          (t1 ++ [.unsubscribe, .finishPrepared false], .errPrepareFailed failed_at)
        else
          let t2 := t1 ++ [.setPrecommitted, .gatherPrecommitsPhase]
          match GatherPrecommits x.sender_to_node pm x.precommitEvents with
          | .blocked _ => (t2, .blockedInGather)
          | .errOffline => (t2, .errDisabledDuringCommit)
          | .done =>
            let t3 := t2 ++ [.finishPrepared true, .gatherCommitsPhase]
            match GatherPrecommits x.sender_to_node pm x.commitEvents with
            | .blocked _ => (t3, .blockedInGather)
            | .errOffline => (t3, .errDisabledDuringCommit)
            | .done =>
              (t3 ++ [.releaseCommitBarrier, .unsubscribe], .committed)

/-! ## MtmBeginTransaction (commit.c:68-92) -/

/-- How `MtmBeginTransaction` ends: either the transaction proceeds with
the computed `isDistributed` flag, or `mtm_log(ERROR, "Multimaster node is
not online: ...")` rejects it. -/
inductive BeginOutcome
  | admitted (isDistributed : Bool)
  | errClusterNotOnline
deriving DecidableEq, Repr

/-- ASCII lower-casing of one byte, as `pg_strcasecmp` performs it. -/
def toLowerByte (c : Nat) : Nat := if 65 ≤ c ∧ c ≤ 90 then c + 32 else c

/-- `pg_strcasecmp(a, b) == 0`: ASCII case-insensitive equality of two C
strings (byte lists). -/
def pg_strcasecmp_eq (a b : List Nat) : Bool :=
  a.map toLowerByte == b.map toLowerByte

/-- The byte string `create extension multimaster;`. -/
def createExtensionQuery : List Nat :=
  [99, 114, 101, 97, 116, 101, 32, 101, 120, 116, 101, 110, 115, 105, 111,
   110, 32, 109, 117, 108, 116, 105, 109, 97, 115, 116, 101, 114, 59]

/-- The condition of the `mtm_log(ERROR, "Multimaster node is not online:
...")` branch of `MtmBeginTransaction` (commit.c:80-83):
`x->isDistributed && Mtm->status != MTM_ONLINE
&& strcmp(application_name, MULTIMASTER_ADMIN) != 0
&& strcmp(application_name, MULTIMASTER_BROADCAST_SERVICE) != 0
&& debug_query_string
&& pg_strcasecmp(debug_query_string, "create extension multimaster;") != 0`. -/
def beginRejectCond (isDistributed : Bool) (status : MtmNodeStatus)
    (application_name multimaster_admin multimaster_broadcast : List Nat)
    (debug_query : Option (List Nat)) : Bool :=
  isDistributed && !(status == .online)
    && !(application_name == multimaster_admin)
    && !(application_name == multimaster_broadcast)
    && (match debug_query with
        | some q => !pg_strcasecmp_eq q createExtensionQuery
        | none => false)

/-- `MtmBeginTransaction` (commit.c:68-92). `isUserTransaction` is the
result of `MtmIsUserTransaction()` (assigned to `x->isDistributed`); the
two name parameters stand for the `MULTIMASTER_ADMIN` and
`MULTIMASTER_BROADCAST_SERVICE` constants of the header; `debug_query` is
`debug_query_string` (`none` for NULL). -/
def MtmBeginTransaction (isUserTransaction : Bool) (status : MtmNodeStatus)
    (application_name multimaster_admin multimaster_broadcast : List Nat)
    (debug_query : Option (List Nat)) : BeginOutcome :=
  let isDistributed := isUserTransaction
  if beginRejectCond isDistributed status application_name multimaster_admin
      multimaster_broadcast debug_query then
    .errClusterNotOnline
  else
    .admitted isDistributed

/-! ## MtmExecutorFinish (ddl.c:907-951) -/

/-- The per-result-relation facts that `MtmExecutorFinish` reads:
`RelationNeedsWAL(rel)` and, after `RelationGetIndexList`, whether
`rel->rd_replidindex` is a valid OID. -/
structure RelInfo where
  needsWAL : Bool
  hasReplicaIdentityIndex : Bool
deriving DecidableEq, Repr

/-- `CmdType` values distinguished by the hook. -/
inductive CmdTypeM
  | cmdSelect
  | cmdInsert
  | cmdUpdate
  | cmdDelete
  | cmdOther
deriving DecidableEq, Repr

/-- The relation scan of `MtmExecutorFinish`: returns true iff the loop
sets `MtmTx.containsDML`. A relation that needs WAL sets the flag and
breaks, except that with `MtmIgnoreTablesWithoutPk` a relation without a
replica identity index is made local and skipped (`continue`). -/
def execFinishScan (ignoreTablesWithoutPk : Bool) : List RelInfo → Bool
  | [] => false
  | r :: rest =>
      if r.needsWAL then
        if ignoreTablesWithoutPk && !r.hasReplicaIdentityIndex then
          execFinishScan ignoreTablesWithoutPk rest
        else true
      else execFinishScan ignoreTablesWithoutPk rest

/-- `MtmExecutorFinish` (ddl.c:907-951), restricted to its effect on
`MtmTx.containsDML`: the scan runs only when `es_processed != 0` and the
operation is INSERT, UPDATE or DELETE. -/
def MtmExecutorFinish (operation : CmdTypeM) (es_processed : Nat)
    (rels : List RelInfo) (ignoreTablesWithoutPk containsDML : Bool) : Bool :=
  if es_processed ≠ 0
      && (operation == .cmdInsert || operation == .cmdUpdate
          || operation == .cmdDelete) then
    if execFinishScan ignoreTablesWithoutPk rels then true else containsDML
  else containsDML

/-! ## Claims about MtmTwoPhaseCommit -/

/-- C1: whenever `MtmTwoPhaseCommit` reaches the participant snapshot (the
early-return guard passed), the captured mask has bit `i` set exactly for
the configured nodes (`i < nAllNodes`) that are neither in
`disabledNodeMask` nor the coordinator's own node (`i ≠ myNodeId - 1`);
the snapshot is taken in every such run; and if the observed status is not
`MTM_ONLINE`, the run ends with the went-offline error and never reaches
the local PREPARE. -/
theorem participantSnapshot_mask_and_offline (x : CommitInput)
    (hflags : (!x.isDistributed || !x.containsDML || !x.extensionCreated) = false)
    (hn : x.nAllNodes ≤ 64) :
    (∀ i, (participantsMaskOf x.nAllNodes x.myNodeId x.disabledNodeMask).testBit i
        = (decide (i < x.nAllNodes) && !x.disabledNodeMask.testBit i
            && !(decide (i = x.myNodeId - 1))))
    ∧ CommitAction.snapshotParticipants
        (participantsMaskOf x.nAllNodes x.myNodeId x.disabledNodeMask)
        ∈ (MtmTwoPhaseCommit x).1
    ∧ (x.status ≠ MtmNodeStatus.online →
        MtmTwoPhaseCommit x
          = (CommitAction.subscribe x.xid ::
              (List.replicate x.stopNewCommitsPolls CommitAction.sleepSecond ++
                [CommitAction.acquireCommitBarrier,
                 CommitAction.snapshotParticipants
                   (participantsMaskOf x.nAllNodes x.myNodeId x.disabledNodeMask)]),
             CommitOutcome.errWentOffline)
        ∧ CommitAction.prepareLocal ∉ (MtmTwoPhaseCommit x).1) := by
  refine ⟨fun i => participantsMaskOf_testBit x.nAllNodes x.myNodeId x.disabledNodeMask i hn,
    ?_, fun hoff => ?_⟩
  · by_cases hstat : x.status = MtmNodeStatus.online
    · by_cases hprep : x.prepareOk = true
      · cases hgp : GatherPrepares x.sender_to_node
            (participantsMaskOf x.nAllNodes x.myNodeId x.disabledNodeMask)
            true none x.prepareEvents with
        | done prepared failed_at =>
          by_cases hp : prepared = true
          · cases hgc1 : GatherPrecommits x.sender_to_node
                (participantsMaskOf x.nAllNodes x.myNodeId x.disabledNodeMask)
                x.precommitEvents with
            | done =>
              cases hgc2 : GatherPrecommits x.sender_to_node
                  (participantsMaskOf x.nAllNodes x.myNodeId x.disabledNodeMask)
                  x.commitEvents with
              | done =>
                simp [MtmTwoPhaseCommit, hflags, hstat, hprep, hgp, hp, hgc1, hgc2]
              | errOffline =>
                simp [MtmTwoPhaseCommit, hflags, hstat, hprep, hgp, hp, hgc1, hgc2]
              | blocked m =>
                simp [MtmTwoPhaseCommit, hflags, hstat, hprep, hgp, hp, hgc1, hgc2]
            | errOffline =>
              simp [MtmTwoPhaseCommit, hflags, hstat, hprep, hgp, hp, hgc1]
            | blocked m =>
              simp [MtmTwoPhaseCommit, hflags, hstat, hprep, hgp, hp, hgc1]
          · have hp' : prepared = false := by
              cases prepared
              · rfl
              · exact absurd rfl hp
            simp [MtmTwoPhaseCommit, hflags, hstat, hprep, hgp, hp']
        | errOffline =>
          simp [MtmTwoPhaseCommit, hflags, hstat, hprep, hgp]
        | blocked m p f =>
          simp [MtmTwoPhaseCommit, hflags, hstat, hprep, hgp]
      · have hprep' : x.prepareOk = false := by
          cases h : x.prepareOk
          · rfl
          · exact absurd h hprep
        simp [MtmTwoPhaseCommit, hflags, hstat, hprep']
    · simp [MtmTwoPhaseCommit, hflags, hstat]
  · constructor
    · simp [MtmTwoPhaseCommit, hflags, hoff]
    · simp [MtmTwoPhaseCommit, hflags, hoff, List.mem_replicate]

/-- A concrete two-node run: coordinator is node 1, node 2 answers every
gather phase; one `stop_new_commits` poll. -/
def sampleRun : CommitInput :=
  ⟨true, true, true, 7, 1, 2, 1, 0, MtmNodeStatus.online, true, (fun _ => 2),
    [DmqPopEvent.msg 0 ⟨MtmMessageCode.msgPrepared, 2, 7⟩],
    [DmqPopEvent.msg 0 ⟨MtmMessageCode.msgPrecommitted, 2, 7⟩],
    [DmqPopEvent.msg 0 ⟨MtmMessageCode.msgCommitted, 2, 7⟩]⟩

/-- Witness for C1 on `sampleRun`. -/
theorem participantSnapshot_mask_and_offline_witness :
    ((!sampleRun.isDistributed || !sampleRun.containsDML
        || !sampleRun.extensionCreated) = false)
    ∧ sampleRun.nAllNodes ≤ 64
    ∧ CommitAction.snapshotParticipants
        (participantsMaskOf sampleRun.nAllNodes sampleRun.myNodeId
          sampleRun.disabledNodeMask)
        ∈ (MtmTwoPhaseCommit sampleRun).1 :=
  ⟨by decide, by decide,
    (participantSnapshot_mask_and_offline sampleRun (by decide) (by decide)).2.1⟩

/-- C4: every run of `MtmTwoPhaseCommit` that commits performs exactly, in
this order: subscribe to the per-xid stream, one 1-second sleep per
`stop_new_commits` poll, acquire the CommitBarrier (shared), snapshot the
participants, local PREPARE, gather PREPAREDs, set the prepared state to
precommitted, gather PRECOMMITTEDs, local commit, gather COMMITTEDs,
release the CommitBarrier, unsubscribe — so the barrier is acquired before
the participant snapshot and released only after the COMMITTED gather. -/
theorem commit_success_trace (x : CommitInput)
    (h : (MtmTwoPhaseCommit x).2 = CommitOutcome.committed) :
    (MtmTwoPhaseCommit x).1
      = CommitAction.subscribe x.xid ::
          (List.replicate x.stopNewCommitsPolls CommitAction.sleepSecond ++
            [CommitAction.acquireCommitBarrier,
             CommitAction.snapshotParticipants
               (participantsMaskOf x.nAllNodes x.myNodeId x.disabledNodeMask),
             CommitAction.prepareLocal,
             CommitAction.gatherPreparesPhase,
             CommitAction.setPrecommitted,
             CommitAction.gatherPrecommitsPhase,
             CommitAction.finishPrepared true,
             CommitAction.gatherCommitsPhase,
             CommitAction.releaseCommitBarrier,
             CommitAction.unsubscribe]) := by
  by_cases hflags : (!x.isDistributed || !x.containsDML || !x.extensionCreated) = true
  · simp [MtmTwoPhaseCommit, hflags] at h
  · have hflags' : (!x.isDistributed || !x.containsDML || !x.extensionCreated) = false := by
      cases hv : (!x.isDistributed || !x.containsDML || !x.extensionCreated)
      · rfl
      · exact absurd hv hflags
    by_cases hstat : x.status = MtmNodeStatus.online
    · by_cases hprep : x.prepareOk = true
      · cases hgp : GatherPrepares x.sender_to_node
            (participantsMaskOf x.nAllNodes x.myNodeId x.disabledNodeMask)
            true none x.prepareEvents with
        | done prepared failed_at =>
          by_cases hp : prepared = true
          · cases hgc1 : GatherPrecommits x.sender_to_node
                (participantsMaskOf x.nAllNodes x.myNodeId x.disabledNodeMask)
                x.precommitEvents with
            | done =>
              cases hgc2 : GatherPrecommits x.sender_to_node
                  (participantsMaskOf x.nAllNodes x.myNodeId x.disabledNodeMask)
                  x.commitEvents with
              | done =>
                simp [MtmTwoPhaseCommit, hflags', hstat, hprep, hgp, hp, hgc1, hgc2]
              | errOffline =>
                simp [MtmTwoPhaseCommit, hflags', hstat, hprep, hgp, hp, hgc1, hgc2] at h
              | blocked m =>
                simp [MtmTwoPhaseCommit, hflags', hstat, hprep, hgp, hp, hgc1, hgc2] at h
            | errOffline =>
              simp [MtmTwoPhaseCommit, hflags', hstat, hprep, hgp, hp, hgc1] at h
            | blocked m =>
              simp [MtmTwoPhaseCommit, hflags', hstat, hprep, hgp, hp, hgc1] at h
          · have hp' : prepared = false := by
              cases prepared
              · rfl
              · exact absurd rfl hp
            simp [MtmTwoPhaseCommit, hflags', hstat, hprep, hgp, hp'] at h
        | errOffline =>
          simp [MtmTwoPhaseCommit, hflags', hstat, hprep, hgp] at h
        | blocked m p f =>
          simp [MtmTwoPhaseCommit, hflags', hstat, hprep, hgp] at h
      · have hprep' : x.prepareOk = false := by
          cases hv : x.prepareOk
          · rfl
          · exact absurd hv hprep
        simp [MtmTwoPhaseCommit, hflags', hstat, hprep'] at h
    · simp [MtmTwoPhaseCommit, hflags', hstat] at h

/-- Witness for C4 on `sampleRun`: the run commits and its trace is the
3PC sequence with one sleep poll. -/
theorem commit_success_trace_witness :
    (MtmTwoPhaseCommit sampleRun).2 = CommitOutcome.committed
    ∧ (MtmTwoPhaseCommit sampleRun).1
      = [CommitAction.subscribe 7, CommitAction.sleepSecond,
         CommitAction.acquireCommitBarrier,
         CommitAction.snapshotParticipants 2,
         CommitAction.prepareLocal, CommitAction.gatherPreparesPhase,
         CommitAction.setPrecommitted, CommitAction.gatherPrecommitsPhase,
         CommitAction.finishPrepared true, CommitAction.gatherCommitsPhase,
         CommitAction.releaseCommitBarrier, CommitAction.unsubscribe] := by
  refine ⟨by decide, ?_⟩
  have h := commit_success_trace sampleRun (by decide)
  rw [h]
  decide

theorem execFinishScan_any (ig : Bool) (rels : List RelInfo) :
    execFinishScan ig rels
      = rels.any (fun r => r.needsWAL && (!ig || r.hasReplicaIdentityIndex)) := by
  induction rels with
  | nil => rfl
  | cons r rest ih =>
    simp only [execFinishScan, List.any_cons]
    cases hw : r.needsWAL
    · simp [ih]
    · cases hig : ig
      · simp
      · cases hr : r.hasReplicaIdentityIndex
        · rw [hig] at ih
          simpa [hw, hig, hr] using ih
        · simp [hw, hig, hr]

theorem twoPhaseCommit_runs (x : CommitInput)
    (hflags : (!x.isDistributed || !x.containsDML || !x.extensionCreated) = false) :
    (MtmTwoPhaseCommit x).1 ≠ []
    ∧ (MtmTwoPhaseCommit x).2 ≠ CommitOutcome.skippedLocal := by
  by_cases hstat : x.status = MtmNodeStatus.online
  · by_cases hprep : x.prepareOk = true
    · cases hgp : GatherPrepares x.sender_to_node
          (participantsMaskOf x.nAllNodes x.myNodeId x.disabledNodeMask)
          true none x.prepareEvents with
      | done prepared failed_at =>
        by_cases hp : prepared = true
        · cases hgc1 : GatherPrecommits x.sender_to_node
              (participantsMaskOf x.nAllNodes x.myNodeId x.disabledNodeMask)
              x.precommitEvents with
          | done =>
            cases hgc2 : GatherPrecommits x.sender_to_node
                (participantsMaskOf x.nAllNodes x.myNodeId x.disabledNodeMask)
                x.commitEvents with
            | done => simp [MtmTwoPhaseCommit, hflags, hstat, hprep, hgp, hp, hgc1, hgc2]
            | errOffline => simp [MtmTwoPhaseCommit, hflags, hstat, hprep, hgp, hp, hgc1, hgc2]
            | blocked m => simp [MtmTwoPhaseCommit, hflags, hstat, hprep, hgp, hp, hgc1, hgc2]
          | errOffline => simp [MtmTwoPhaseCommit, hflags, hstat, hprep, hgp, hp, hgc1]
          | blocked m => simp [MtmTwoPhaseCommit, hflags, hstat, hprep, hgp, hp, hgc1]
        · have hp' : prepared = false := by
            cases prepared
            · rfl
            · exact absurd rfl hp
          simp [MtmTwoPhaseCommit, hflags, hstat, hprep, hgp, hp']
      | errOffline => simp [MtmTwoPhaseCommit, hflags, hstat, hprep, hgp]
      | blocked m p f => simp [MtmTwoPhaseCommit, hflags, hstat, hprep, hgp]
    · have hprep' : x.prepareOk = false := by
        cases hv : x.prepareOk
        · rfl
        · exact absurd hv hprep
      simp [MtmTwoPhaseCommit, hflags, hstat, hprep']
  · simp [MtmTwoPhaseCommit, hflags, hstat]

/-- `sampleRun` with `Mtm->extension_created` false. -/
def sampleRunNoExtension : CommitInput :=
  { sampleRun with extensionCreated := false }

/-- Counterexample to C7: a transaction with `is_distributed` and
`contains_dml` both true is nevertheless not run through 3PC, because
`Mtm->extension_created` is false and the guard
`if (!x->isDistributed || !x->containsDML || !Mtm->extension_created)
return false;` also tests the third flag. -/
theorem twoPhase_guard_counterexample :
    sampleRunNoExtension.isDistributed = true
    ∧ sampleRunNoExtension.containsDML = true
    ∧ MtmTwoPhaseCommit sampleRunNoExtension = ([], CommitOutcome.skippedLocal) :=
  ⟨rfl, rfl, by decide⟩

/-- C7 (amended): the 3PC sequence is entered if and only if
`is_distributed`, `contains_dml` AND `Mtm->extension_created` are all
true; otherwise `MtmTwoPhaseCommit` returns immediately with no actions
and the transaction falls through to a local one-phase commit. Moreover
`MtmExecutorFinish` sets `contains_dml` exactly when rows were processed
(`es_processed != 0`) by an INSERT/UPDATE/DELETE on some result relation
that needs WAL (skipping, under `MtmIgnoreTablesWithoutPk`, relations
without a replica identity index). -/
theorem commit_guard_and_dml_hook :
    (∀ x : CommitInput,
        ((MtmTwoPhaseCommit x).1 ≠ []
            ∧ (MtmTwoPhaseCommit x).2 ≠ CommitOutcome.skippedLocal)
          ↔ (x.isDistributed = true ∧ x.containsDML = true
              ∧ x.extensionCreated = true))
    ∧ (∀ (op : CmdTypeM) (p : Nat) (rels : List RelInfo) (ig dml : Bool),
        MtmExecutorFinish op p rels ig dml
          = (dml
              || (decide (p ≠ 0)
                  && (op == CmdTypeM.cmdInsert || op == CmdTypeM.cmdUpdate
                      || op == CmdTypeM.cmdDelete)
                  && rels.any
                      (fun r => r.needsWAL && (!ig || r.hasReplicaIdentityIndex))))) := by
  constructor
  · intro x
    by_cases hflags : (!x.isDistributed || !x.containsDML || !x.extensionCreated) = true
    · constructor
      · intro habs
        exact absurd (by simp [MtmTwoPhaseCommit, hflags]) habs.1
      · rintro ⟨h1, h2, h3⟩
        rw [h1, h2, h3] at hflags
        simp at hflags
    · have hflags' : (!x.isDistributed || !x.containsDML || !x.extensionCreated) = false := by
        cases hv : (!x.isDistributed || !x.containsDML || !x.extensionCreated)
        · rfl
        · exact absurd hv hflags
      have h1 : x.isDistributed = true := by
        cases hv : x.isDistributed
        · rw [hv] at hflags'; simp at hflags'
        · rfl
      have h2 : x.containsDML = true := by
        cases hv : x.containsDML
        · rw [hv] at hflags'; simp at hflags'
        · rfl
      have h3 : x.extensionCreated = true := by
        cases hv : x.extensionCreated
        · rw [hv] at hflags'; simp at hflags'
        · rfl
      simp only [h1, h2, h3, and_self, iff_true]
      exact twoPhaseCommit_runs x hflags'
  · intro op p rels ig dml
    unfold MtmExecutorFinish
    rw [execFinishScan_any]
    cases hg : (decide (p ≠ 0)
        && (op == CmdTypeM.cmdInsert || op == CmdTypeM.cmdUpdate
            || op == CmdTypeM.cmdDelete))
    · simp [hg]
    · cases hs : rels.any (fun r => r.needsWAL && (!ig || r.hasReplicaIdentityIndex))
      · simp [hg, hs]
      · simp [hg, hs]

/-- Spec §4.1 step 5, stated in the spec's words (second definition, to be
compared with the code's `gatherPreparesStep`): an event clears participant
bit `j` exactly when (a) it is a delivered reply whose sender maps to node
`j+1`, or (b) it is a detach notification for that sender and the observed
membership state has that peer in `disabledNodeMask` while this node is
still `MTM_ONLINE`. -/
def spec_clears_bit (sender_to_node : Nat → Nat) (e : DmqPopEvent) (j : Nat) : Bool :=
  match e with
  | .msg sender_id _ => decide (sender_to_node sender_id - 1 = j)
  | .detached sender_id disabledNodeMask status =>
      decide (sender_to_node sender_id - 1 = j)
        && disabledNodeMask.testBit (sender_to_node sender_id - 1)
        && decide (status = MtmNodeStatus.online)

/-- C2: (i) one gather-prepares iteration clears bit `j` exactly under the
spec's condition (`spec_clears_bit`); (ii) an `ABORTED` reply records
failure with `failed_at = msg->node`; (iii) a detached peer found in
`disabledNodeMask` while this node is still online is dropped with failure
recorded at that peer; (iv) when `GatherPrepares` reports failure,
`MtmTwoPhaseCommit` unsubscribes, finishes the prepared transaction with
`commit = false` and ends with the `PrepareFailed` error naming
`failed_at`. -/
theorem gatherPrepares_clearing_and_failure :
    (∀ (s2n : Nat → Nat) (mask : Nat) (p : Bool) (f : Option Nat) (e : DmqPopEvent)
        (m' : Nat) (p' : Bool) (f' : Option Nat) (j : Nat),
        gatherPreparesStep s2n mask p f e = GatherPrepStep.cont m' p' f' → j < 64 →
          m'.testBit j = (mask.testBit j && !spec_clears_bit s2n e j))
    ∧ (∀ (s2n : Nat → Nat) (mask : Nat) (p : Bool) (f : Option Nat) (sender_id : Nat)
        (m : MtmArbiterMessage), m.code = MtmMessageCode.msgAborted →
          gatherPreparesStep s2n mask p f (DmqPopEvent.msg sender_id m)
            = GatherPrepStep.cont (BIT_CLEAR mask (s2n sender_id - 1)) false
                (some m.node))
    ∧ (∀ (s2n : Nat → Nat) (mask : Nat) (p : Bool) (f : Option Nat) (sender_id : Nat)
        (dmask : Nat), dmask.testBit (s2n sender_id - 1) = true →
          gatherPreparesStep s2n mask p f
              (DmqPopEvent.detached sender_id dmask MtmNodeStatus.online)
            = GatherPrepStep.cont (BIT_CLEAR mask (s2n sender_id - 1)) false
                (some (s2n sender_id)))
    ∧ (∀ (x : CommitInput) (fa : Option Nat),
        (!x.isDistributed || !x.containsDML || !x.extensionCreated) = false →
        x.status = MtmNodeStatus.online →
        x.prepareOk = true →
        GatherPrepares x.sender_to_node
            (participantsMaskOf x.nAllNodes x.myNodeId x.disabledNodeMask)
            true none x.prepareEvents = GatherPrepOutcome.done false fa →
        MtmTwoPhaseCommit x
          = (CommitAction.subscribe x.xid ::
              (List.replicate x.stopNewCommitsPolls CommitAction.sleepSecond ++
                [CommitAction.acquireCommitBarrier,
                 CommitAction.snapshotParticipants
                   (participantsMaskOf x.nAllNodes x.myNodeId x.disabledNodeMask),
                 CommitAction.prepareLocal,
                 CommitAction.gatherPreparesPhase,
                 CommitAction.unsubscribe,
                 CommitAction.finishPrepared false]),
             CommitOutcome.errPrepareFailed fa)) := by
  refine ⟨?_, ?_, ?_, ?_⟩
  · intro s2n mask p f e m' p' f' j hstep hj
    cases e with
    | msg sender_id m =>
      simp only [gatherPreparesStep, GatherPrepStep.cont.injEq] at hstep
      obtain ⟨hm, _, _⟩ := hstep
      rw [← hm, BIT_CLEAR_testBit mask (s2n sender_id - 1) j hj]
      simp [spec_clears_bit]
    | detached sender_id dmask st =>
      simp only [gatherPreparesStep] at hstep
      by_cases h1 : BIT_CHECK dmask (s2n sender_id - 1) = true
      · rw [if_pos h1] at hstep
        by_cases h2 : st = MtmNodeStatus.online
        · rw [if_neg (by simp [h2])] at hstep
          simp only [GatherPrepStep.cont.injEq] at hstep
          obtain ⟨hm, _, _⟩ := hstep
          rw [← hm, BIT_CLEAR_testBit mask (s2n sender_id - 1) j hj]
          unfold BIT_CHECK at h1
          simp [spec_clears_bit, h1, h2]
        · rw [if_pos (by simp [h2])] at hstep
          exact absurd hstep (by simp)
      · rw [if_neg h1] at hstep
        simp only [GatherPrepStep.cont.injEq] at hstep
        obtain ⟨hm, _, _⟩ := hstep
        unfold BIT_CHECK at h1
        rw [← hm]
        simp only [spec_clears_bit, Bool.not_eq_true] at h1 ⊢
        rw [h1]
        simp
  · intro s2n mask p f sender_id m hcode
    simp [gatherPreparesStep, hcode]
  · intro s2n mask p f sender_id dmask hd
    simp [gatherPreparesStep, BIT_CHECK, hd]
  · intro x fa hflags hstat hprep hgp
    simp [MtmTwoPhaseCommit, hflags, hstat, hprep, hgp]

/-- `sampleRun` with node 2 voting ABORTED in the prepare gather. -/
def sampleRunAborted : CommitInput :=
  { sampleRun with
      prepareEvents := [DmqPopEvent.msg 0 ⟨MtmMessageCode.msgAborted, 2, 7⟩] }

/-- Witness for C2: concrete instances of the four conjuncts (an ABORTED
reply from node 2 on a two-node cluster). -/
theorem gatherPrepares_clearing_and_failure_witness :
    (BIT_CLEAR 2 1).testBit 1
      = (Nat.testBit 2 1
          && !spec_clears_bit (fun _ => 2)
              (DmqPopEvent.msg 0 ⟨MtmMessageCode.msgAborted, 2, 7⟩) 1)
    ∧ gatherPreparesStep (fun _ => 2) 2 true none
        (DmqPopEvent.msg 0 ⟨MtmMessageCode.msgAborted, 2, 7⟩)
      = GatherPrepStep.cont (BIT_CLEAR 2 1) false (some 2)
    ∧ gatherPreparesStep (fun _ => 2) 2 true none
        (DmqPopEvent.detached 0 2 MtmNodeStatus.online)
      = GatherPrepStep.cont (BIT_CLEAR 2 1) false (some 2)
    ∧ MtmTwoPhaseCommit sampleRunAborted
      = (CommitAction.subscribe 7 ::
          (List.replicate 1 CommitAction.sleepSecond ++
            [CommitAction.acquireCommitBarrier,
             CommitAction.snapshotParticipants (participantsMaskOf 2 1 0),
             CommitAction.prepareLocal,
             CommitAction.gatherPreparesPhase,
             CommitAction.unsubscribe,
             CommitAction.finishPrepared false]),
         CommitOutcome.errPrepareFailed (some 2)) := by
  obtain ⟨h1, h2, h3, h4⟩ := gatherPrepares_clearing_and_failure
  refine ⟨?_, h2 (fun _ => 2) 2 true none 0 ⟨MtmMessageCode.msgAborted, 2, 7⟩ rfl,
    h3 (fun _ => 2) 2 true none 0 2 (by decide), ?_⟩
  · exact h1 (fun _ => 2) 2 true none
      (DmqPopEvent.msg 0 ⟨MtmMessageCode.msgAborted, 2, 7⟩)
      (BIT_CLEAR 2 1) false (some 2) 1 (by decide) (by decide)
  · exact h4 sampleRunAborted (some 2) (by decide) (by decide) (by decide) (by decide)

/-- C3: (i) a gather-precommits iteration errors out exactly when the
detached peer is in `disabledNodeMask` and this node itself is no longer
online — an `errOffline` is never produced by a delivered reply; (ii) a
gather-precommits iteration can only remove bits from the awaited mask,
never add them; (iii) once `GatherPrepares` succeeded, the run never
executes `FINISH PREPARED(gid, commit=false)`; if the PRECOMMITTED gather
completes, the coordinator unconditionally finishes the prepared
transaction with `commit=true`; and the only error the PRECOMMITTED gather
can raise is the this-node-went-offline one. -/
theorem precommit_phase_never_aborts :
    (∀ (s2n : Nat → Nat) (mask : Nat) (sender_id : Nat) (dmask : Nat)
        (st : MtmNodeStatus),
        gatherPrecommitsStep s2n mask (DmqPopEvent.detached sender_id dmask st)
            = GatherPrecommitStep.errOffline
          ↔ (dmask.testBit (s2n sender_id - 1) = true ∧ st ≠ MtmNodeStatus.online))
    ∧ (∀ (s2n : Nat → Nat) (mask : Nat) (sender_id : Nat) (m : MtmArbiterMessage),
        gatherPrecommitsStep s2n mask (DmqPopEvent.msg sender_id m)
          = GatherPrecommitStep.cont (BIT_CLEAR mask (s2n sender_id - 1)))
    ∧ (∀ (s2n : Nat → Nat) (mask : Nat) (e : DmqPopEvent) (m' : Nat) (j : Nat),
        gatherPrecommitsStep s2n mask e = GatherPrecommitStep.cont m' → j < 64 →
          m'.testBit j = true → mask.testBit j = true)
    ∧ (∀ (x : CommitInput) (fa : Option Nat),
        (!x.isDistributed || !x.containsDML || !x.extensionCreated) = false →
        x.status = MtmNodeStatus.online →
        x.prepareOk = true →
        GatherPrepares x.sender_to_node
            (participantsMaskOf x.nAllNodes x.myNodeId x.disabledNodeMask)
            true none x.prepareEvents = GatherPrepOutcome.done true fa →
          CommitAction.finishPrepared false ∉ (MtmTwoPhaseCommit x).1
          ∧ (GatherPrecommits x.sender_to_node
                (participantsMaskOf x.nAllNodes x.myNodeId x.disabledNodeMask)
                x.precommitEvents = GatherPrecommitOutcome.done →
              CommitAction.finishPrepared true ∈ (MtmTwoPhaseCommit x).1)
          ∧ (GatherPrecommits x.sender_to_node
                (participantsMaskOf x.nAllNodes x.myNodeId x.disabledNodeMask)
                x.precommitEvents = GatherPrecommitOutcome.errOffline →
              (MtmTwoPhaseCommit x).2 = CommitOutcome.errDisabledDuringCommit)) := by
  refine ⟨?_, ?_, ?_, ?_⟩
  · intro s2n mask sender_id dmask st
    simp only [gatherPrecommitsStep]
    by_cases h1 : BIT_CHECK dmask (s2n sender_id - 1) = true
    · rw [if_pos h1]
      by_cases h2 : st = MtmNodeStatus.online
      · rw [if_neg (by simp [h2])]
        unfold BIT_CHECK at h1
        simp [h1, h2]
      · rw [if_pos (by simp [h2])]
        unfold BIT_CHECK at h1
        simp [h1, h2]
    · rw [if_neg h1]
      unfold BIT_CHECK at h1
      simp only [Bool.not_eq_true] at h1
      simp [h1]
  · intro s2n mask sender_id m
    simp [gatherPrecommitsStep]
  · intro s2n mask e m' j hstep hj hbit
    cases e with
    | msg sender_id m =>
      simp only [gatherPrecommitsStep, GatherPrecommitStep.cont.injEq] at hstep
      rw [← hstep, BIT_CLEAR_testBit mask (s2n sender_id - 1) j hj] at hbit
      exact (Bool.and_eq_true _ _).mp hbit |>.1
    | detached sender_id dmask st =>
      simp only [gatherPrecommitsStep] at hstep
      by_cases h1 : BIT_CHECK dmask (s2n sender_id - 1) = true
      · rw [if_pos h1] at hstep
        by_cases h2 : st = MtmNodeStatus.online
        · rw [if_neg (by simp [h2])] at hstep
          simp only [GatherPrecommitStep.cont.injEq] at hstep
          rw [← hstep, BIT_CLEAR_testBit mask (s2n sender_id - 1) j hj] at hbit
          exact (Bool.and_eq_true _ _).mp hbit |>.1
        · rw [if_pos (by simp [h2])] at hstep
          exact absurd hstep (by simp)
      · rw [if_neg h1] at hstep
        simp only [GatherPrecommitStep.cont.injEq] at hstep
        rw [← hstep] at hbit
        exact hbit
  · intro x fa hflags hstat hprep hgp
    refine ⟨?_, fun hgc1 => ?_, fun hgc1 => ?_⟩
    · cases hgc1 : GatherPrecommits x.sender_to_node
          (participantsMaskOf x.nAllNodes x.myNodeId x.disabledNodeMask)
          x.precommitEvents with
      | done =>
        cases hgc2 : GatherPrecommits x.sender_to_node
            (participantsMaskOf x.nAllNodes x.myNodeId x.disabledNodeMask)
            x.commitEvents with
        | done =>
          simp [MtmTwoPhaseCommit, hflags, hstat, hprep, hgp, hgc1, hgc2,
            List.mem_replicate]
        | errOffline =>
          simp [MtmTwoPhaseCommit, hflags, hstat, hprep, hgp, hgc1, hgc2,
            List.mem_replicate]
        | blocked m =>
          simp [MtmTwoPhaseCommit, hflags, hstat, hprep, hgp, hgc1, hgc2,
            List.mem_replicate]
      | errOffline =>
        simp [MtmTwoPhaseCommit, hflags, hstat, hprep, hgp, hgc1,
          List.mem_replicate]
      | blocked m =>
        simp [MtmTwoPhaseCommit, hflags, hstat, hprep, hgp, hgc1,
          List.mem_replicate]
    · cases hgc2 : GatherPrecommits x.sender_to_node
          (participantsMaskOf x.nAllNodes x.myNodeId x.disabledNodeMask)
          x.commitEvents with
      | done => simp [MtmTwoPhaseCommit, hflags, hstat, hprep, hgp, hgc1, hgc2]
      | errOffline => simp [MtmTwoPhaseCommit, hflags, hstat, hprep, hgp, hgc1, hgc2]
      | blocked m => simp [MtmTwoPhaseCommit, hflags, hstat, hprep, hgp, hgc1, hgc2]
    · simp [MtmTwoPhaseCommit, hflags, hstat, hprep, hgp, hgc1]

/-- Witness for C3: a detached but not-yet-disabled peer does not error
the precommit gather; a reply clears the sender's bit; bit 1 of the
cleared mask was set before; and on `sampleRun` (whose prepare gather
succeeds) the commit=false finish never appears while commit=true does. -/
theorem precommit_phase_never_aborts_witness :
    (¬(gatherPrecommitsStep (fun _ => 2) 2 (DmqPopEvent.detached 0 0 MtmNodeStatus.online)
        = GatherPrecommitStep.errOffline))
    ∧ gatherPrecommitsStep (fun _ => 2) 2
        (DmqPopEvent.msg 0 ⟨MtmMessageCode.msgPrecommitted, 2, 7⟩)
      = GatherPrecommitStep.cont (BIT_CLEAR 2 1)
    ∧ CommitAction.finishPrepared false ∉ (MtmTwoPhaseCommit sampleRun).1
    ∧ CommitAction.finishPrepared true ∈ (MtmTwoPhaseCommit sampleRun).1 := by
  obtain ⟨h1, h2, h3, h4⟩ := precommit_phase_never_aborts
  have hx := h4 sampleRun none (by decide) (by decide) (by decide) (by decide)
  refine ⟨?_, h2 (fun _ => 2) 2 0 ⟨MtmMessageCode.msgPrecommitted, 2, 7⟩,
    hx.1, hx.2.1 (by decide)⟩
  intro habs
  have := (h1 (fun _ => 2) 2 0 0 MtmNodeStatus.online).mp habs
  simp at this

/-- Number of nodes in a `nodemask_t` (the spec's cardinality of a
participant set; bits live below 64). -/
def maskCard (mask : Nat) : Nat :=
  ((List.range 64).filter (fun i => mask.testBit i)).length

/-- C5 evidence (code bug): on a five-node cluster where nodes 2, 3 and 4
are already disabled (mask 14) and node 1 coordinates, the snapshot leaves
`participantsMask = 16` (node 5 only); after node 5's single PREPARED
reply, `GatherPrepares` returns success — yet only 2 of the 5 configured
nodes (the coordinator and node 5) accepted, which is not a strict
majority (2·2 > 5 fails). The majority assertion required by the spec is
only the comment `XXX: assert that majority has responded` in the code. -/
theorem gatherPrepares_minority_success :
    participantsMaskOf 5 1 14 = 16
    ∧ GatherPrepares (fun _ => 5) (participantsMaskOf 5 1 14) true none
        [DmqPopEvent.msg 0 ⟨MtmMessageCode.msgPrepared, 5, 42⟩]
      = GatherPrepOutcome.done true none
    ∧ maskCard (participantsMaskOf 5 1 14) + 1 = 2
    ∧ ¬(2 * (maskCard (participantsMaskOf 5 1 14) + 1) > 5) :=
  ⟨by decide, by decide, by decide, by decide⟩

/-- Counterexample to C6: a user transaction started while the node is
DISABLED is admitted, not rejected, when the current query is
`create extension multimaster;` — `MtmBeginTransaction` exempts that
query (and the admin/broadcast application names, and a NULL
`debug_query_string`) from the not-online check. The application name
here is `psql` and the two service-name constants are `mtm_admin` and
`mtm_bcast`, all as byte strings. -/
theorem beginTransaction_counterexample :
    MtmBeginTransaction true MtmNodeStatus.disabled [112, 115, 113, 108]
        [109, 116, 109, 95, 97, 100, 109, 105, 110]
        [109, 116, 109, 95, 98, 99, 97, 115, 116]
        (some createExtensionQuery)
      = BeginOutcome.admitted true := by
  decide

/-- C6 (amended): `MtmBeginTransaction` rejects with the not-online error
exactly when the transaction is a user transaction, the status is not
`MTM_ONLINE`, the application name is neither `MULTIMASTER_ADMIN` nor
`MULTIMASTER_BROADCAST_SERVICE`, and `debug_query_string` is present and
differs (case-insensitively) from `create extension multimaster;`; in
every other case the transaction is admitted with
`isDistributed = MtmIsUserTransaction()`. -/
theorem beginTransaction_reject_iff (isUser : Bool) (status : MtmNodeStatus)
    (app admin bcast : List Nat) (dqs : Option (List Nat)) :
    (MtmBeginTransaction isUser status app admin bcast dqs
        = BeginOutcome.errClusterNotOnline
      ↔ (isUser = true ∧ status ≠ MtmNodeStatus.online ∧ app ≠ admin
          ∧ app ≠ bcast
          ∧ ∃ q, dqs = some q
              ∧ pg_strcasecmp_eq q createExtensionQuery = false))
    ∧ (MtmBeginTransaction isUser status app admin bcast dqs
          ≠ BeginOutcome.errClusterNotOnline →
        MtmBeginTransaction isUser status app admin bcast dqs
          = BeginOutcome.admitted isUser) := by
  constructor
  · cases isUser
    · simp [MtmBeginTransaction, beginRejectCond]
    · cases dqs with
      | none => simp [MtmBeginTransaction, beginRejectCond]
      | some q =>
        by_cases h1 : status = MtmNodeStatus.online
        · simp [MtmBeginTransaction, beginRejectCond, h1]
        · by_cases h2 : app = admin
          · simp [MtmBeginTransaction, beginRejectCond, h1, h2]
          · by_cases h3 : app = bcast
            · simp [MtmBeginTransaction, beginRejectCond, h1, h2, h3]
            · cases h4 : pg_strcasecmp_eq q createExtensionQuery
              · simp [MtmBeginTransaction, beginRejectCond, h1, h2, h3, h4]
              · simp [MtmBeginTransaction, beginRejectCond, h1, h2, h3, h4]
  · intro hne
    cases hcond : beginRejectCond isUser status app admin bcast dqs
    · simp [MtmBeginTransaction, hcond]
    · exact absurd (by simp [MtmBeginTransaction, hcond]) hne

/-- Witness for the amended C6: with no current query string the
transaction is admitted even though the node is in RECOVERY. -/
theorem beginTransaction_reject_iff_witness :
    MtmBeginTransaction true MtmNodeStatus.recovery [112] [109] [110] none
      = BeginOutcome.admitted true :=
  (beginTransaction_reject_iff true MtmNodeStatus.recovery [112] [109] [110]
    none).2 (by decide)
